import Mathlib

/-!
Verification of the nexus-wasm-bridge runtime (capability checking, host
functions, instance pool, engine façade, compiler cache) against its
natural-language specification.  Rust strings are modelled as lists of
characters (`Str`), Rust `HashMap`s as association lists, and the guest
engine collaborator as an explicit outcome parameter; everything else is a
direct transcription of the Rust source.
-/

set_option autoImplicit false
set_option linter.unusedVariables false

/-- Rust `String` / `&str`, modelled as the list of its characters. -/
abbrev Str : Type := List Char

/-- Rust `s.split(':').collect::<Vec<_>>()` on a character list: splits at
every colon, keeping empty segments (so an empty string yields one empty
segment, as Rust `split` does). -/
def splitColon : Str → List Str
  | [] => [[]]
  | c :: rest =>
    if c = ':' then [] :: splitColon rest
    else
      match splitColon rest with
      | [] => [[c]]
      | s :: ss => (c :: s) :: ss

/-- `CapabilityToken` from capability.rs: the ten parsed capability forms. -/
inductive CapabilityToken where
  | stateRead (key : Str)
  | stateWrite (key : Str)
  | stateReadAll
  | stateWriteAll
  | eventsEmit (name : Str)
  | eventsEmitAll
  | viewUpdate (id : Str)
  | viewUpdateAll
  | extension (name : Str)
  | extensionAll
  deriving DecidableEq

/-- `CapabilityToken::parse` (capability.rs): split on colons and match the
shapes in source order (each family's wildcard arm precedes its keyed arm). -/
def CapabilityToken.parse (s : Str) : Option CapabilityToken :=
  match splitColon s with
  | [a, b, c] =>
    if a == "state".toList && b == "read".toList && c == "*".toList then
      some .stateReadAll
    else if a == "state".toList && b == "write".toList && c == "*".toList then
      some .stateWriteAll
    else if a == "state".toList && b == "read".toList then
      some (.stateRead c)
    else if a == "state".toList && b == "write".toList then
      some (.stateWrite c)
    else if a == "events".toList && b == "emit".toList && c == "*".toList then
      some .eventsEmitAll
    else if a == "events".toList && b == "emit".toList then
      some (.eventsEmit c)
    else if a == "view".toList && b == "update".toList && c == "*".toList then
      some .viewUpdateAll
    else if a == "view".toList && b == "update".toList then
      some (.viewUpdate c)
    else
      none
  | [a, b] =>
    if a == "ext".toList && b == "*".toList then some .extensionAll
    else if a == "ext".toList then some (.extension b)
    else none
  | _ => none

/-- `CapabilityToken::matches` (capability.rs): parse the required string and
pattern-match the pair of token and parts; anything else is `false`. -/
def CapabilityToken.matches (t : CapabilityToken) (required : Str) : Bool :=
  match t, splitColon required with
  | .stateReadAll, [a, b, _] => a == "state".toList && b == "read".toList
  | .stateRead key, [a, b, k] =>
      a == "state".toList && b == "read".toList && key == k
  | .stateWriteAll, [a, b, _] => a == "state".toList && b == "write".toList
  | .stateWrite key, [a, b, k] =>
      a == "state".toList && b == "write".toList && key == k
  | .eventsEmitAll, [a, b, _] => a == "events".toList && b == "emit".toList
  | .eventsEmit name, [a, b, k] =>
      a == "events".toList && b == "emit".toList && name == k
  | .viewUpdateAll, [a, b, _] => a == "view".toList && b == "update".toList
  | .viewUpdate id, [a, b, k] =>
      a == "view".toList && b == "update".toList && id == k
  | .extensionAll, [a, _] => a == "ext".toList
  | .extension name, [a, k] => a == "ext".toList && name == k
  | _, _ => false

/-- `CapabilityToken::to_string_repr` (capability.rs). -/
def CapabilityToken.to_string_repr : CapabilityToken → Str
  | .stateRead key => "state:read:".toList ++ key
  | .stateWrite key => "state:write:".toList ++ key
  | .stateReadAll => "state:read:*".toList
  | .stateWriteAll => "state:write:*".toList
  | .eventsEmit name => "events:emit:".toList ++ name
  | .eventsEmitAll => "events:emit:*".toList
  | .viewUpdate id => "view:update:".toList ++ id
  | .viewUpdateAll => "view:update:*".toList
  | .extension name => "ext:".toList ++ name
  | .extensionAll => "ext:*".toList

/-- `impl From<String> for CapabilityToken` (capability.rs): parse, falling
back to an Extension token whose scope is the whole input string. -/
def CapabilityToken.fromString (s : Str) : CapabilityToken :=
  match CapabilityToken.parse s with
  | some t => t
  | none => .extension s

/-- `CapabilityChecker::check` (capability.rs) and equally
`ExecutionContext::has_capability` (context.rs): any granted token matches. -/
def CapabilityChecker.check (capabilities : List CapabilityToken)
    (required : Str) : Bool :=
  capabilities.any (fun c => c.matches required)

/-! The five capability families named by the specification, used to state
the claimed matching law.  A required capability string "of the form
family:scope" is `Family.str f ++ ':' :: scope`. -/

inductive Family where
  | stateRead
  | stateWrite
  | eventsEmit
  | viewUpdate
  | ext
  deriving DecidableEq

def Family.str : Family → Str
  | .stateRead => "state:read".toList
  | .stateWrite => "state:write".toList
  | .eventsEmit => "events:emit".toList
  | .viewUpdate => "view:update".toList
  | .ext => "ext".toList

/-- The required capability string built from a family and a scope. -/
def requiredOf (f : Family) (scope : Str) : Str :=
  Family.str f ++ ':' :: scope

/-- The family a token belongs to. -/
def CapabilityToken.family : CapabilityToken → Family
  | .stateRead _ | .stateReadAll => .stateRead
  | .stateWrite _ | .stateWriteAll => .stateWrite
  | .eventsEmit _ | .eventsEmitAll => .eventsEmit
  | .viewUpdate _ | .viewUpdateAll => .viewUpdate
  | .extension _ | .extensionAll => .ext

/-- Whether a token is the wildcard of its family. -/
def CapabilityToken.isWildcard : CapabilityToken → Bool
  | .stateReadAll | .stateWriteAll | .eventsEmitAll | .viewUpdateAll
  | .extensionAll => true
  | _ => false

/-- The scope carried by a token (wildcards carry the star scope). -/
def CapabilityToken.scope : CapabilityToken → Str
  | .stateRead key | .stateWrite key => key
  | .eventsEmit name | .extension name => name
  | .viewUpdate id => id
  | .stateReadAll | .stateWriteAll | .eventsEmitAll | .viewUpdateAll
  | .extensionAll => "*".toList

/-- Modelled from the spec: the claimed matching law for one granted token —
family equal and (wildcard or scope string-equal).  Compared against the
source-derived `CapabilityToken.matches`. -/
def specTokenMatches (t : CapabilityToken) (f : Family) (scope : Str) : Prop :=
  t.family = f ∧ (t.isWildcard = true ∨ t.scope = scope)

instance (t : CapabilityToken) (f : Family) (scope : Str) :
    Decidable (specTokenMatches t f scope) := by
  unfold specTokenMatches; infer_instance

/-- Modelled from the spec: the claimed matching law for a granted set. -/
def specCheck (capabilities : List CapabilityToken) (f : Family)
    (scope : Str) : Prop :=
  ∃ t ∈ capabilities, specTokenMatches t f scope

instance (capabilities : List CapabilityToken) (f : Family) (scope : Str) :
    Decidable (specCheck capabilities f scope) := by
  unfold specCheck; infer_instance

/-- Scopes for which the token-to-string-to-token round-trip can succeed:
colon-free and not the star string (wildcard constructors are unrestricted). -/
def CapabilityToken.scopeSafe : CapabilityToken → Prop
  | .stateRead k | .stateWrite k => ':' ∉ k ∧ k ≠ "*".toList
  | .eventsEmit n | .extension n => ':' ∉ n ∧ n ≠ "*".toList
  | .viewUpdate i => ':' ∉ i ∧ i ≠ "*".toList
  | .stateReadAll | .stateWriteAll | .eventsEmitAll | .viewUpdateAll
  | .extensionAll => True

/-! Value model and execution context (context.rs).  Rust `HashMap`s are
modelled as association lists; assoc-list lookup takes the first matching
key, which coincides with `HashMap` behaviour since inserts replace. -/

/-- Assoc-list lookup: first entry whose key equals `k`. -/
def lookupStr {α : Type} (l : List (Str × α)) (k : Str) : Option α :=
  (l.find? (fun p => p.1 == k)).map (fun p => p.2)

/-- `RuntimeValue` (context.rs): tagged runtime value. -/
inductive RuntimeValue where
  | null
  | bool (b : Bool)
  | number (n : Float)
  | string (s : Str)
  | array (xs : List RuntimeValue)
  | object (fields : List (Str × RuntimeValue))

/-- `MutationOperation` (context.rs). -/
inductive MutationOperation where
  | set
  | delete
  deriving DecidableEq

/-- `StateMutation` (context.rs). -/
structure StateMutation where
  key : Str
  value : RuntimeValue
  operation : MutationOperation

/-- `StateMutation::set`. -/
def StateMutation.mkSet (key : Str) (value : RuntimeValue) : StateMutation :=
  { key := key, value := value, operation := .set }

/-- `StateMutation::delete` (carries a Null value). -/
def StateMutation.mkDelete (key : Str) : StateMutation :=
  { key := key, value := .null, operation := .delete }

/-- `EmittedEvent` (context.rs). -/
structure EmittedEvent where
  name : Str
  payload : RuntimeValue

/-- `ViewCommandType` (context.rs). -/
inductive ViewCommandType where
  | setFilter
  | scrollTo
  | focus
  | custom
  deriving DecidableEq

/-- `ViewCommand` (context.rs). -/
structure ViewCommand where
  command_type : ViewCommandType
  component_id : Option Str
  args : List (Str × RuntimeValue)

/-- `ViewCommand::focus`. -/
def ViewCommand.mkFocus (component_id : Str) : ViewCommand :=
  { command_type := .focus, component_id := some component_id, args := [] }

/-- `LogLevel` (context.rs). -/
inductive LogLevel where
  | debug
  | info
  | warn
  | error
  deriving DecidableEq

/-- `impl From<i32> for LogLevel` (context.rs): unknown levels become Info. -/
def LogLevel.fromInt (level : Int) : LogLevel :=
  if level = 0 then .debug
  else if level = 1 then .info
  else if level = 2 then .warn
  else if level = 3 then .error
  else .info

/-- `LogMessage` (context.rs). -/
structure LogMessage where
  level : LogLevel
  message : Str

/-- `SuspensionState` (context.rs): the in-context suspension record. -/
structure SuspensionState where
  id : Str
  extension_name : Str
  method : Str
  args : List RuntimeValue

/-- `SuspensionDetails` (context.rs): the outward suspension record. -/
structure SuspensionDetails where
  suspension_id : Str
  extension_name : Str
  method : Str
  args : List RuntimeValue

/-- `WasmContext` (context.rs): the per-invocation input context. -/
structure WasmContext where
  panel_id : Str
  handler_name : Str
  state_snapshot : List (Str × RuntimeValue)
  args : List (Str × RuntimeValue)
  capabilities : List CapabilityToken
  scope : List (Str × RuntimeValue)
  extension_registry : List (Str × List Str)

/-- `WasmContext::new`. -/
def WasmContext.new (panel_id handler_name : Str) : WasmContext :=
  { panel_id := panel_id, handler_name := handler_name, state_snapshot := [],
    args := [], capabilities := [], scope := [], extension_registry := [] }

/-- `ExecutionContext` (context.rs): the internal mutable context. -/
structure ExecutionContext where
  panel_id : Str
  handler_name : Str
  state_snapshot : List (Str × RuntimeValue)
  args : List (Str × RuntimeValue)
  scope : List (Str × RuntimeValue)
  capabilities : List CapabilityToken
  extension_registry : List (Str × List Str)
  state_mutations : List StateMutation
  events : List EmittedEvent
  view_commands : List ViewCommand
  log_messages : List LogMessage
  host_call_count : Nat
  suspension : Option SuspensionState

/-- `ExecutionContext::from_wasm_context` (context.rs). -/
def ExecutionContext.from_wasm_context (c : WasmContext) : ExecutionContext :=
  { panel_id := c.panel_id, handler_name := c.handler_name,
    state_snapshot := c.state_snapshot, args := c.args, scope := c.scope,
    capabilities := c.capabilities,
    extension_registry := c.extension_registry, state_mutations := [],
    events := [], view_commands := [], log_messages := [],
    host_call_count := 0, suspension := none }

/-- `ExecutionContext::has_capability` (context.rs). -/
def ExecutionContext.has_capability (ctx : ExecutionContext)
    (cap : Str) : Bool :=
  ctx.capabilities.any (fun c => c.matches cap)

/-- Host-function integer error codes (error.rs, `error_codes`). -/
def error_codes.SUCCESS : Int := 0

def error_codes.PERMISSION_DENIED : Int := -1

def error_codes.RESOURCE_LIMIT : Int := -2

def error_codes.INVALID_ARGUMENT : Int := -3

def error_codes.NOT_FOUND : Int := -4

def error_codes.INTERNAL_ERROR : Int := -5

/-! Host functions (host_functions/*.rs).  Each Rust function takes the
shared context behind a mutex and possibly mutates it; here each is a pure
function from the context to a result code paired with the updated context. -/

/-- `state_get` (host_functions/state.rs). -/
def state_get (ctx : ExecutionContext) (key : Str) :
    Except Int (Option RuntimeValue) × ExecutionContext :=
  let required := "state:read:".toList ++ key
  if !ctx.has_capability required &&
      !ctx.has_capability ("state:read:*".toList) then
    (.error error_codes.PERMISSION_DENIED, ctx)
  else
    (.ok (lookupStr ctx.state_snapshot key), ctx)

/-- `state_set` (host_functions/state.rs): check capability, then record the
mutation. -/
def state_set (ctx : ExecutionContext) (key : Str) (value : RuntimeValue) :
    Except Int Unit × ExecutionContext :=
  let required := "state:write:".toList ++ key
  if !ctx.has_capability required &&
      !ctx.has_capability ("state:write:*".toList) then
    (.error error_codes.PERMISSION_DENIED, ctx)
  else
    (.ok (), { ctx with state_mutations := ctx.state_mutations ++
      [{ key := key, value := value, operation := .set }] })

/-- `state_delete` (host_functions/state.rs). -/
def state_delete (ctx : ExecutionContext) (key : Str) :
    Except Int Unit × ExecutionContext :=
  let required := "state:write:".toList ++ key
  if !ctx.has_capability required &&
      !ctx.has_capability ("state:write:*".toList) then
    (.error error_codes.PERMISSION_DENIED, ctx)
  else
    (.ok (), { ctx with state_mutations := ctx.state_mutations ++
      [{ key := key, value := .null, operation := .delete }] })

/-- `state_has` (host_functions/state.rs). -/
def state_has (ctx : ExecutionContext) (key : Str) :
    Except Int Bool × ExecutionContext :=
  let required := "state:read:".toList ++ key
  if !ctx.has_capability required &&
      !ctx.has_capability ("state:read:*".toList) then
    (.error error_codes.PERMISSION_DENIED, ctx)
  else
    (.ok ((lookupStr ctx.state_snapshot key).isSome), ctx)

/-- `state_keys` (host_functions/state.rs): requires the read wildcard. -/
def state_keys (ctx : ExecutionContext) :
    Except Int (List Str) × ExecutionContext :=
  if !ctx.has_capability ("state:read:*".toList) then
    (.error error_codes.PERMISSION_DENIED, ctx)
  else
    (.ok (ctx.state_snapshot.map (fun p => p.1)), ctx)

/-- `emit_event` (host_functions/events.rs). -/
def emit_event (ctx : ExecutionContext) (event_name : Str)
    (payload : RuntimeValue) : Except Int Unit × ExecutionContext :=
  let required := "events:emit:".toList ++ event_name
  if !ctx.has_capability required &&
      !ctx.has_capability ("events:emit:*".toList) then
    (.error error_codes.PERMISSION_DENIED, ctx)
  else
    (.ok (), { ctx with events := ctx.events ++
      [{ name := event_name, payload := payload }] })

/-- The required capability of `view_command` (host_functions/view.rs):
specific component id, or the wildcard when no id is given. -/
def viewRequired (command : ViewCommand) : Str :=
  match command.component_id with
  | some id => "view:update:".toList ++ id
  | none => "view:update:*".toList

/-- `view_command` (host_functions/view.rs). -/
def view_command (ctx : ExecutionContext) (command : ViewCommand) :
    Except Int Unit × ExecutionContext :=
  if !ctx.has_capability (viewRequired command) &&
      !ctx.has_capability ("view:update:*".toList) then
    (.error error_codes.PERMISSION_DENIED, ctx)
  else
    (.ok (), { ctx with view_commands := ctx.view_commands ++ [command] })

/-- `ext_suspend` (host_functions/extension.rs).  The fresh suspension id
(a UUID in the source) is passed in as `sid`. -/
def ext_suspend (ctx : ExecutionContext) (ext_name method : Str)
    (args : List RuntimeValue) (sid : Str) :
    Except Int SuspensionDetails × ExecutionContext :=
  match lookupStr ctx.extension_registry ext_name with
  | none => (.error error_codes.NOT_FOUND, ctx)
  | some methods =>
    if !methods.any (fun m => m == method) then
      (.error error_codes.NOT_FOUND, ctx)
    else
      let required := "ext:".toList ++ ext_name
      if !ctx.has_capability required &&
          !ctx.has_capability ("ext:*".toList) then
        (.error error_codes.PERMISSION_DENIED, ctx)
      else
        let ss : SuspensionState :=
          { id := sid, extension_name := ext_name, method := method, args := args }
        (.ok { suspension_id := sid, extension_name := ext_name,
               method := method, args := args },
         { ctx with suspension := some ss })

/-- `log` (host_functions/logging.rs): always allowed, records the line. -/
def logging.log (ctx : ExecutionContext) (level : Int) (message : Str) :
    Except Int Unit × ExecutionContext :=
  (.ok (), { ctx with log_messages := ctx.log_messages ++
    [{ level := LogLevel.fromInt level, message := message }] })

/-- `HostFunctions::check_host_call_limit` (host_functions/mod.rs):
increment first, then fail when the new count strictly exceeds the cap. -/
def HostFunctions.check_host_call_limit (ctx : ExecutionContext)
    (max_host_calls : Nat) : Except Int Unit × ExecutionContext :=
  let count := ctx.host_call_count + 1
  let ctx := { ctx with host_call_count := count }
  if count > max_host_calls then
    (.error error_codes.RESOURCE_LIMIT, ctx)
  else
    (.ok (), ctx)

/-- A context with no granted capabilities, built the way the runtime builds
contexts from an incoming `WasmContext`. -/
def noCapsCtx : ExecutionContext :=
  ExecutionContext.from_wasm_context
    (WasmContext.new ("panel-1".toList) ("increment".toList))

/-- A context granting only `state:write:*`. -/
def writeAllCtx : ExecutionContext :=
  ExecutionContext.from_wasm_context
    { WasmContext.new ("panel-1".toList) ("increment".toList) with
        capabilities := [CapabilityToken.stateWriteAll] }

/-! Error taxonomy (error.rs), metrics (metrics.rs), results (context.rs). -/

/-- `ErrorCode` (error.rs). -/
inductive ErrorCode where
  | timeout
  | memoryLimit
  | permissionDenied
  | executionError
  | compilationError
  | invalidHandler
  | internalError
  | resourceLimit
  | wasmError
  | serializationError
  | invalidArgument
  | extensionNotFound
  | methodNotFound
  deriving DecidableEq

/-- `impl Display for ErrorCode` (error.rs). -/
def ErrorCode.displayStr : ErrorCode → Str
  | .timeout => "TIMEOUT".toList
  | .memoryLimit => "MEMORY_LIMIT".toList
  | .permissionDenied => "PERMISSION_DENIED".toList
  | .executionError => "EXECUTION_ERROR".toList
  | .compilationError => "COMPILATION_ERROR".toList
  | .invalidHandler => "INVALID_HANDLER".toList
  | .internalError => "INTERNAL_ERROR".toList
  | .resourceLimit => "RESOURCE_LIMIT".toList
  | .wasmError => "WASM_ERROR".toList
  | .serializationError => "SERIALIZATION_ERROR".toList
  | .invalidArgument => "INVALID_ARGUMENT".toList
  | .extensionNotFound => "EXTENSION_NOT_FOUND".toList
  | .methodNotFound => "METHOD_NOT_FOUND".toList

/-- `WasmError` (error.rs).  The `context` JSON payload is not modelled; it
is never set on any path treated here. -/
structure WasmError where
  code : ErrorCode
  message : Str
  stack : Option Str
  location : Option (Nat × Nat)
  snippet : Option (Str × Nat)

/-- `WasmError::new`. -/
def WasmError.new (code : ErrorCode) (message : Str) : WasmError :=
  { code := code, message := message, stack := none, location := none,
    snippet := none }

/-- Decimal rendering of a number, for messages built with `format!`. -/
def natToStr (n : Nat) : Str := (toString n).toList

/-- `WasmError::timeout` (error.rs). -/
def WasmError.timeout (timeout_ms : Nat) : WasmError :=
  WasmError.new .timeout
    ("Handler exceeded ".toList ++ natToStr timeout_ms ++
      "ms time limit".toList)

/-- `RuntimeError` (error.rs).  The `Shutdown` variant is referenced by
pool.rs although error.rs does not declare it; it is included here so the
pool code can be transcribed. -/
inductive RuntimeError where
  | wasm (e : WasmError)
  | config (msg : Str)
  | io (msg : Str)
  | serialization (msg : Str)
  | pool (msg : Str)
  | inst (msg : Str)
  | compilation (msg : Str)
  | invalidState (msg : Str)
  | suspension (msg : Str)
  | general (msg : Str)
  | shutdownErr (msg : Str)

/-- `RuntimeError::to_wasm_error` (error.rs).  The undeclared `Shutdown`
variant is mapped like the other internal errors. -/
def RuntimeError.to_wasm_error : RuntimeError → WasmError
  | .wasm e => e
  | .config msg => WasmError.new .invalidArgument msg
  | .io msg => WasmError.new .internalError msg
  | .serialization msg => WasmError.new .serializationError msg
  | .pool msg => WasmError.new .internalError msg
  | .inst msg => WasmError.new .wasmError msg
  | .compilation msg => WasmError.new .compilationError msg
  | .invalidState msg => WasmError.new .internalError msg
  | .suspension msg => WasmError.new .internalError msg
  | .general msg => WasmError.new .internalError msg
  | .shutdownErr msg => WasmError.new .internalError msg

/-- `ExecutionMetrics` (metrics.rs); durations are in microseconds. -/
structure ExecutionMetrics where
  duration_us : Nat
  memory_used_bytes : Nat
  memory_peak_bytes : Nat
  host_calls : List (Str × Nat)
  instruction_count : Nat
  compilation_time_us : Option Nat
  cache_hit : Bool

/-- `ExecutionMetrics::new` / `Default`. -/
def ExecutionMetrics.new : ExecutionMetrics :=
  { duration_us := 0, memory_used_bytes := 0, memory_peak_bytes := 0,
    host_calls := [], instruction_count := 0, compilation_time_us := none,
    cache_hit := false }

/-- `ExecutionMetrics::with_duration` (already in microseconds). -/
def ExecutionMetrics.with_duration (m : ExecutionMetrics)
    (duration_us : Nat) : ExecutionMetrics :=
  { m with duration_us := duration_us }

/-- `ExecutionMetrics::with_memory`. -/
def ExecutionMetrics.with_memory (m : ExecutionMetrics)
    (used peak : Nat) : ExecutionMetrics :=
  { m with memory_used_bytes := used, memory_peak_bytes := peak }

/-- `ExecutionStatus` (context.rs). -/
inductive ExecutionStatus where
  | success
  | error
  | suspended
  deriving DecidableEq

/-- `WasmResult` (context.rs). -/
structure WasmResult where
  status : ExecutionStatus
  return_value : Option RuntimeValue
  state_mutations : List StateMutation
  events : List EmittedEvent
  view_commands : List ViewCommand
  suspension : Option SuspensionDetails
  error : Option WasmError
  metrics : ExecutionMetrics

/-- `WasmResult::error` (context.rs): an Error result with empty effect
lists. -/
def WasmResult.mkError (e : WasmError) (metrics : ExecutionMetrics) :
    WasmResult :=
  { status := .error, return_value := none, state_mutations := [],
    events := [], view_commands := [], suspension := none, error := some e,
    metrics := metrics }

/-- `WasmResult::with_mutations`. -/
def WasmResult.with_mutations (r : WasmResult)
    (mutations : List StateMutation) : WasmResult :=
  { r with state_mutations := mutations }

/-- `WasmResult::with_events`. -/
def WasmResult.with_events (r : WasmResult)
    (events : List EmittedEvent) : WasmResult :=
  { r with events := events }

/-- `WasmResult::with_view_commands`. -/
def WasmResult.with_view_commands (r : WasmResult)
    (commands : List ViewCommand) : WasmResult :=
  { r with view_commands := commands }

/-- `AsyncResult` (context.rs). -/
structure AsyncResult where
  success : Bool
  value : Option RuntimeValue
  error : Option Str

/-- Bump a counter map entry by `amount` (`*map.entry(k).or_insert(0) += a`). -/
def bumpAssoc : List (Str × Nat) → Str → Nat → List (Str × Nat)
  | [], k, amount => [(k, amount)]
  | (k', v) :: rest, k, amount =>
    if k' == k then (k', v + amount) :: rest
    else (k', v) :: bumpAssoc rest k amount

/-- `MetricsCollector` (metrics.rs). -/
structure MetricsCollector where
  total_executions : Nat
  successful_executions : Nat
  failed_executions : Nat
  total_execution_time_us : Nat
  cache_hits : Nat
  cache_misses : Nat
  total_memory_used : Nat
  peak_memory : Nat
  host_calls : List (Str × Nat)
  error_counts : List (Str × Nat)

/-- `MetricsCollector::new`. -/
def MetricsCollector.new : MetricsCollector :=
  { total_executions := 0, successful_executions := 0,
    failed_executions := 0, total_execution_time_us := 0, cache_hits := 0,
    cache_misses := 0, total_memory_used := 0, peak_memory := 0,
    host_calls := [], error_counts := [] }

/-- `MetricsCollector::record_execution` (metrics.rs); the compare-exchange
loop on peak memory amounts to taking the maximum. -/
def MetricsCollector.record_execution (mc : MetricsCollector)
    (m : ExecutionMetrics) (success : Bool) : MetricsCollector :=
  { mc with
      total_executions := mc.total_executions + 1,
      successful_executions :=
        if success then mc.successful_executions + 1
        else mc.successful_executions,
      failed_executions :=
        if success then mc.failed_executions else mc.failed_executions + 1,
      total_execution_time_us := mc.total_execution_time_us + m.duration_us,
      cache_hits := if m.cache_hit then mc.cache_hits + 1 else mc.cache_hits,
      cache_misses :=
        if m.cache_hit then mc.cache_misses else mc.cache_misses + 1,
      total_memory_used := mc.total_memory_used + m.memory_used_bytes,
      peak_memory := max mc.peak_memory m.memory_peak_bytes,
      host_calls := m.host_calls.foldl
        (fun acc p => bumpAssoc acc p.1 p.2) mc.host_calls }

/-- `MetricsCollector::record_error` (metrics.rs). -/
def MetricsCollector.record_error (mc : MetricsCollector)
    (error_code : Str) : MetricsCollector :=
  { mc with error_counts := bumpAssoc mc.error_counts error_code 1 }

/-! Instance (engine/instance.rs).  The guest engine is a collaborator the
source stubs out (`execute_internal` / `resume_internal`); its outcome and
the contents of the shared `ExecutionContext` at the moment it returns are
therefore taken as parameters (`engineResult`, `ctxAfter`), and so is the
measured wall-clock duration.  The outcome-handling logic below them is a
direct transcription. -/

/-- `CompiledHandler` (engine/compiler.rs): bytecode (in the simulated
compiler, the wrapped source bytes) plus the cache-hit flag; the optional
source map is not needed by any claim treated here. -/
structure CompiledHandler where
  bytecode : Str
  cache_hit : Bool

/-- `InstanceState` (engine/instance.rs). -/
inductive InstanceState where
  | idle
  | executing
  | suspended
  | terminated
  deriving DecidableEq

/-- `WasmInstance` (engine/instance.rs).  The UUID instance id is modelled
as a number drawn from the pool's fresh-id counter; `context` holds the
contents of the shared execution context when one is attached. -/
structure WasmInstance where
  id : Nat
  state : InstanceState
  memory_used : Nat
  memory_peak : Nat
  execution_count : Nat
  context : Option ExecutionContext
  suspension_id : Option Str

/-- `WasmInstance::new` (engine/instance.rs), with `id` the fresh id. -/
def WasmInstance.new (id : Nat) : WasmInstance :=
  { id := id, state := .idle, memory_used := 0, memory_peak := 0,
    execution_count := 0, context := none, suspension_id := none }

/-- `WasmInstance::reset` (engine/instance.rs). -/
def WasmInstance.reset (inst : WasmInstance) :
    Except RuntimeError WasmInstance :=
  if inst.state = .terminated then
    .error (.invalidState ("Cannot reset terminated instance".toList))
  else
    .ok { inst with
      state := .idle, context := none, suspension_id := none,
      memory_used := 0 }

/-- `WasmInstance::terminate` (engine/instance.rs). -/
def WasmInstance.terminate (inst : WasmInstance) : WasmInstance :=
  { inst with state := .terminated, context := none, suspension_id := none }

/-- `WasmInstance::execute` (engine/instance.rs).  The simulated
`execute_internal` pins memory at 1 MiB; the engine outcome and post-engine
context contents are the `engineResult` and `ctxAfter` parameters. -/
def WasmInstance.execute (inst : WasmInstance) (compiled : CompiledHandler)
    (wasm_context : WasmContext)
    (engineResult : Except RuntimeError (Option RuntimeValue))
    (ctxAfter : ExecutionContext) (duration_us : Nat) :
    Except RuntimeError (WasmInstance × WasmResult) :=
  if inst.state ≠ .idle then
    .error (.invalidState ("Instance not idle".toList))
  else
    let inst := { inst with
      state := .executing,
      execution_count := inst.execution_count + 1,
      memory_used := 1048576, memory_peak := 1048576,
      context := some ctxAfter }
    match engineResult with
    | .ok return_value =>
      match ctxAfter.suspension with
      | some susp =>
        .ok ({ inst with
            state := .suspended, suspension_id := some susp.id },
          { status := .suspended, return_value := none,
            state_mutations := ctxAfter.state_mutations,
            events := ctxAfter.events,
            view_commands := ctxAfter.view_commands,
            suspension := some { suspension_id := susp.id,
                                 extension_name := susp.extension_name,
                                 method := susp.method,
                                 args := susp.args },
            error := none,
            metrics := (ExecutionMetrics.new.with_duration
              duration_us).with_memory 1048576 1048576 })
      | none =>
        .ok ({ inst with state := .idle },
          { status := .success, return_value := return_value,
            state_mutations := ctxAfter.state_mutations,
            events := ctxAfter.events,
            view_commands := ctxAfter.view_commands,
            suspension := none, error := none,
            metrics := (ExecutionMetrics.new.with_duration
              duration_us).with_memory 1048576 1048576 })
    | .error e =>
      .ok ({ inst with state := .idle },
        (((WasmResult.mkError e.to_wasm_error
            ((ExecutionMetrics.new.with_duration
              duration_us).with_memory 1048576 1048576)).with_mutations
          ctxAfter.state_mutations).with_events
          ctxAfter.events).with_view_commands ctxAfter.view_commands)

/-- `WasmInstance::resume` (engine/instance.rs).  The async result is
forwarded to the engine collaborator, whose outcome is `engineResult`;
`ctxAfter` is the shared context contents when the engine returns.  Note
the error arm: unlike `execute`, it attaches no accumulated effects and
drops the context. -/
def WasmInstance.resume (inst : WasmInstance) (result : AsyncResult)
    (engineResult : Except RuntimeError (Option RuntimeValue))
    (ctxAfter : ExecutionContext) (duration_us : Nat) :
    Except RuntimeError (WasmInstance × WasmResult) :=
  if inst.state ≠ .suspended then
    .error (.invalidState ("Instance not suspended".toList))
  else
    let inst := { inst with state := .executing, suspension_id := none }
    match inst.context with
    | none => .error (.invalidState ("No context".toList))
    | some _ =>
      match engineResult with
      | .ok return_value =>
        match ctxAfter.suspension with
        | some susp =>
          .ok ({ inst with
              state := .suspended, suspension_id := some susp.id,
              context := some ctxAfter },
            { status := .suspended, return_value := none,
              state_mutations := ctxAfter.state_mutations,
              events := ctxAfter.events,
              view_commands := ctxAfter.view_commands,
              suspension := some { suspension_id := susp.id,
                                   extension_name := susp.extension_name,
                                   method := susp.method,
                                   args := susp.args },
              error := none,
              metrics := ExecutionMetrics.new.with_duration duration_us })
        | none =>
          .ok ({ inst with state := .idle, context := none },
            { status := .success, return_value := return_value,
              state_mutations := ctxAfter.state_mutations,
              events := ctxAfter.events,
              view_commands := ctxAfter.view_commands,
              suspension := none, error := none,
              metrics := ExecutionMetrics.new.with_duration duration_us })
      | .error e =>
        .ok ({ inst with state := .idle, context := none },
          WasmResult.mkError e.to_wasm_error
            (ExecutionMetrics.new.with_duration duration_us))

/-! Instance pool (engine/pool.rs).  The available deque is a list whose
head is the back of the deque (so `push_back` is cons and the LIFO
`pop_back` is head); the suspension map is an assoc list; the semaphore is
its permit count, and an `acquire` that would block awaiting a permit is
returned as `none`. -/

/-- `InstancePool` state (engine/pool.rs, `InstancePoolInner`). -/
structure InstancePool where
  max_instances : Nat
  available : List WasmInstance
  suspended : List (Str × WasmInstance)
  permits : Nat
  instances_created : Nat
  active_count : Nat
  total_memory : Nat
  shutdown : Bool
  next_id : Nat

/-- Assoc-list insert with replace, as `HashMap::insert`. -/
def insertAssoc {α : Type} (l : List (Str × α)) (k : Str) (v : α) :
    List (Str × α) :=
  if (l.find? (fun p => p.1 == k)).isSome then
    l.map (fun p => if p.1 == k then (k, v) else p)
  else l ++ [(k, v)]

/-- Assoc-list removal of the (unique) entry with key `k`
(`HashMap::remove`). -/
def removeAssoc {α : Type} : List (Str × α) → Str → List (Str × α)
  | [], _ => []
  | (k', v) :: rest, k =>
    if k' == k then rest else (k', v) :: removeAssoc rest k

/-- `InstancePool::new` (engine/pool.rs): `max` semaphore permits, pre-warm
`min` instances pushed onto the deque in creation order. -/
def InstancePool.new (max_instances min_instances : Nat) : InstancePool :=
  { max_instances := max_instances,
    available := ((List.range min_instances).map WasmInstance.new).reverse,
    suspended := [], permits := max_instances,
    instances_created := min_instances, active_count := 0,
    total_memory := 0, shutdown := false, next_id := min_instances }

/-- `InstancePool::acquire` (engine/pool.rs).  `none` means the caller
blocks awaiting a permit.  A reset failure propagates and the permit guard
is dropped (returned); on success the permit is forgotten and stays
consumed. -/
def InstancePool.acquire (p : InstancePool) :
    Except RuntimeError (Option (InstancePool × WasmInstance)) :=
  if p.shutdown then .error (.shutdownErr ("Pool is shut down".toList))
  else if p.permits = 0 then .ok none
  else
    match p.available with
    | i :: rest =>
      match i.reset with
      | .error e => .error e
      | .ok i' =>
        .ok (some ({ p with
          available := rest, permits := p.permits - 1,
          active_count := p.active_count + 1,
          total_memory := p.total_memory + i'.memory_used }, i'))
    | [] =>
      let i := WasmInstance.new p.next_id
      .ok (some ({ p with
        permits := p.permits - 1,
        instances_created := p.instances_created + 1,
        next_id := p.next_id + 1, active_count := p.active_count + 1,
        total_memory := p.total_memory + i.memory_used }, i))

/-- `InstancePool::release` (engine/pool.rs).  Note that the permit is
added back before the state is inspected, i.e. unconditionally — also for
Suspended instances. -/
def InstancePool.release (p : InstancePool) (inst : WasmInstance) :
    InstancePool :=
  let p := { p with
    active_count := p.active_count - 1,
    total_memory := p.total_memory - inst.memory_used,
    permits := p.permits + 1 }
  match inst.state with
  | .idle =>
    match inst.reset with
    | .ok i => { p with available := i :: p.available }
    | .error _ => p
  | .suspended =>
    match inst.suspension_id with
    | some sid => { p with suspended := insertAssoc p.suspended sid inst }
    | none => p
  | .executing => p
  | .terminated => p

/-- `InstancePool::get_suspended` (engine/pool.rs): remove and hand back
the suspended instance, adjusting the counters; no permit is consumed. -/
def InstancePool.get_suspended (p : InstancePool) (suspension_id : Str) :
    Option (InstancePool × WasmInstance) :=
  match lookupStr p.suspended suspension_id with
  | none => none
  | some inst =>
    some ({ p with
      suspended := removeAssoc p.suspended suspension_id,
      active_count := p.active_count + 1,
      total_memory := p.total_memory + inst.memory_used }, inst)

/-! Engine façade (engine/mod.rs). -/

/-- The raced execution of step 3 of `execute_handler`: either the inner
future completed with the instance's result, or the timeout elapsed. -/
inductive RaceResult where
  | timedOut
  | completed (r : Except RuntimeError WasmResult)

/-- `WasmRuntime::execute_handler`, result-handling tail (engine/mod.rs
lines 84-108): the match on the raced result plus metric recording.
`timer` is `timer.into_metrics(cache_hit)` and `ctxAtAbort` is the effects
context of the raced instance at the moment the race ended — the source
ignores it on the timeout arm, which is the point of claim C7. -/
def WasmRuntime.execute_handler_result (timeout_ms : Nat)
    (race : RaceResult) (timer : ExecutionMetrics) (mc : MetricsCollector)
    (ctxAtAbort : ExecutionContext) :
    Except RuntimeError WasmResult × MetricsCollector :=
  match race with
  | .completed (.ok wasm_result) =>
    (.ok wasm_result, mc.record_execution timer wasm_result.error.isNone)
  | .completed (.error e) =>
    (.error e,
      (mc.record_execution timer false).record_error
        e.to_wasm_error.code.displayStr)
  | .timedOut =>
    (.ok (WasmResult.mkError (WasmError.timeout timeout_ms) timer),
      (mc.record_execution timer false).record_error ("TIMEOUT".toList))

/-- `WasmRuntime::resume_handler` (engine/mod.rs): look up the suspended
instance, resume it, record metrics, return the result.  The resumed
instance itself is dropped — `pool.release` is never called on it; the
returned pool is the one produced by `get_suspended`. -/
def WasmRuntime.resume_handler (pool : InstancePool)
    (mc : MetricsCollector) (suspension_id : Str) (result : AsyncResult)
    (engineResult : Except RuntimeError (Option RuntimeValue))
    (ctxAfter : ExecutionContext) (duration_us : Nat) :
    Except RuntimeError (InstancePool × MetricsCollector × WasmResult) :=
  match pool.get_suspended suspension_id with
  | none => .error (.suspension ("Suspension not found".toList))
  | some (pool', inst) =>
    match inst.resume result engineResult ctxAfter duration_us with
    | .error e => .error e
    | .ok (_, wasm_result) =>
      let timer : ExecutionMetrics :=
        { ExecutionMetrics.new with
            duration_us := duration_us, cache_hit := true }
      .ok (pool', mc.record_execution timer wasm_result.error.isNone,
        wasm_result)

/-! Concrete pool scenario used for claims about release and resume. -/

/-- A suspended instance holding suspension id `s1` (no attached context;
the pool does not look at it). -/
def suspInst : WasmInstance :=
  { WasmInstance.new 0 with
      state := .suspended, suspension_id := some ("s1".toList) }

/-- The pool of capacity 1 right after its first (and only budgeted)
acquire: no permits left, one active checkout. -/
def poolAfterFirstAcquire : InstancePool :=
  { max_instances := 1, available := [], suspended := [], permits := 0,
    instances_created := 1, active_count := 1, total_memory := 0,
    shutdown := false, next_id := 1 }

/-- The same pool after the suspended release and a second acquire: a brand
new instance is checked out while the first is still suspended. -/
def poolAfterSecondAcquire : InstancePool :=
  { max_instances := 1, available := [],
    suspended := [("s1".toList, suspInst)], permits := 0,
    instances_created := 2, active_count := 1, total_memory := 0,
    shutdown := false, next_id := 2 }

/-! Concrete resume scenario shared by the resume claims. -/

/-- A successful async result carrying a null value. -/
def asyncOkNull : AsyncResult :=
  { success := true, value := some RuntimeValue.null, error := none }

/-- A suspended instance with an attached execution context (as left behind
by an execute that suspended). -/
def suspendedInstWithCtx : WasmInstance :=
  { WasmInstance.new 0 with
      state := .suspended, suspension_id := some ("s1".toList),
      context := some noCapsCtx }

/-- A pool of capacity 4 holding that suspended instance under `s1`. -/
def pool5 : InstancePool :=
  { InstancePool.new 4 0 with
      suspended := [("s1".toList, suspendedInstWithCtx)] }

/-- Context contents after a resumed guest suspends again under id `s2`. -/
def ctxSuspAgain : ExecutionContext :=
  { noCapsCtx with
      suspension := some { id := "s2".toList,
                           extension_name := "http".toList,
                           method := "get".toList,
                           args := [] } }

/-- `pool5` after `get_suspended s1`: entry removed, one active checkout. -/
def pool5After : InstancePool :=
  { max_instances := 4, available := [], suspended := [], permits := 4,
    instances_created := 0, active_count := 1, total_memory := 0,
    shutdown := false, next_id := 0 }

/-- The metrics collector after `resume_handler` records the resumed
execution. -/
def mc5After : MetricsCollector :=
  MetricsCollector.new.record_execution
    { ExecutionMetrics.new with duration_us := 5, cache_hit := true } true

/-- The result of the chained suspension under the new id `s2`. -/
def res5After : WasmResult :=
  { status := .suspended, return_value := none, state_mutations := [],
    events := [], view_commands := [],
    suspension := some { suspension_id := "s2".toList,
                         extension_name := "http".toList,
                         method := "get".toList, args := [] },
    error := none, metrics := ExecutionMetrics.new.with_duration 5 }

/-- A single recorded Set mutation used to exhibit accumulated effects. -/
def setKMutation : StateMutation :=
  { key := "k".toList, value := .null, operation := .set }

/-- An execution context that has already accumulated one mutation. -/
def ctxWithMutation : ExecutionContext :=
  { noCapsCtx with state_mutations := [setKMutation] }

/-- The Error result produced by the resume error arm at duration 7. -/
def res6Err : WasmResult :=
  WasmResult.mkError (RuntimeError.general ("boom".toList)).to_wasm_error
    (ExecutionMetrics.new.with_duration 7)

/-- Timer metrics of a raced execution that overran a 50 ms timeout. -/
def timerHit : ExecutionMetrics :=
  { ExecutionMetrics.new with duration_us := 60000 }

/-- The result the façade returns on timeout. -/
def res7 : WasmResult := WasmResult.mkError (WasmError.timeout 50) timerHit

/-- The metrics collector after the timeout is recorded. -/
def mc7 : MetricsCollector :=
  (MetricsCollector.new.record_execution timerHit false).record_error
    ("TIMEOUT".toList)

/-! Compiler memory cache (engine/compiler.rs).  Entries carry their size
and access metadata; bytecode bytes are irrelevant to the budget claim and
are not stored.  `Instant::now()` timestamps are modelled by a logical
clock the cache advances on every operation, so reachable `last_accessed`
values are all distinct, as distinct `Instant`s are. -/

/-- `CacheEntry` metadata (engine/compiler.rs); `size` is the byte size
`CacheEntry::new` computes from the bytecode and source map. -/
structure CacheEntry where
  size : Nat
  created_at : Nat
  last_accessed : Nat
  access_count : Nat
  deriving DecidableEq

/-- The in-memory cache and its tracked byte counter (the `cache`,
`cache_size` and `max_cache_size` fields of `HandlerCompiler`). -/
structure CompilerCache where
  entries : List (Str × CacheEntry)
  cache_size : Nat
  max_cache_size : Nat
  clock : Nat

/-- A fresh compiler cache with the configured budget. -/
def CompilerCache.empty (max_cache_size : Nat) : CompilerCache :=
  { entries := [], cache_size := 0, max_cache_size := max_cache_size,
    clock := 0 }

/-- `iter().min_by_key(last_accessed)`: the first entry with minimal
`last_accessed`. -/
def minByAccessed : List (Str × CacheEntry) → Option (Str × CacheEntry)
  | [] => none
  | p :: rest =>
    some (match minByAccessed rest with
          | none => p
          | some q => if q.2.last_accessed < p.2.last_accessed then q else p)

/-- `HandlerCompiler::evict_lru` (engine/compiler.rs): false on an empty
cache, otherwise remove the least-recently-used entry and subtract its
size. -/
def HandlerCompiler.evict_lru (c : CompilerCache) : Bool × CompilerCache :=
  match minByAccessed c.entries with
  | none => (false, c)
  | some (k, e) =>
    (true, { c with
             entries := removeAssoc c.entries k,
             cache_size := c.cache_size - e.size })

/-- The eviction loop of `put_to_cache`: while the new entry does not fit,
evict, stopping when eviction fails (empty cache).  Each successful
eviction removes one entry, so `entries.length` steps of fuel always
reach the loop's exit condition. -/
def evictLoopAux : Nat → Nat → CompilerCache → CompilerCache
  | 0, _, c => c
  | fuel + 1, entry_size, c =>
    if c.cache_size + entry_size > c.max_cache_size then
      match HandlerCompiler.evict_lru c with
      | (false, c') => c'
      | (true, c') => evictLoopAux fuel entry_size c'
    else c

/-- `HandlerCompiler::put_to_cache` (engine/compiler.rs): evict until the
entry fits (or the cache is empty), then insert, subtracting a replaced
entry's size and adding the new one. -/
def HandlerCompiler.put_to_cache (c : CompilerCache) (key : Str)
    (entry_size : Nat) : CompilerCache :=
  let c1 := evictLoopAux c.entries.length entry_size c
  let entry : CacheEntry :=
    { size := entry_size, created_at := c1.clock,
      last_accessed := c1.clock, access_count := 1 }
  match lookupStr c1.entries key with
  | some old =>
    { c1 with
      entries := removeAssoc c1.entries key ++ [(key, entry)],
      cache_size := c1.cache_size - old.size + entry_size,
      clock := c1.clock + 1 }
  | none =>
    { c1 with
      entries := c1.entries ++ [(key, entry)],
      cache_size := c1.cache_size + entry_size, clock := c1.clock + 1 }

/-- `HandlerCompiler::get_from_cache` (engine/compiler.rs): on a hit,
update `last_accessed` and `access_count` in place. -/
def HandlerCompiler.get_from_cache (c : CompilerCache) (key : Str) :
    Option CacheEntry × CompilerCache :=
  match lookupStr c.entries key with
  | none => (none, c)
  | some e =>
    (some { e with
            last_accessed := c.clock,
            access_count := e.access_count + 1 },
     { c with
        entries := c.entries.map (fun p =>
          if p.1 == key then
            (p.1, { p.2 with
                    last_accessed := c.clock,
                    access_count := p.2.access_count + 1 })
          else p),
        clock := c.clock + 1 })

/-- One cache operation of a compile sequence: a miss stores a fresh
artifact (`put_to_cache`, also used to promote a disk hit), a hit touches
the entry (`get_from_cache`). -/
inductive CacheOp where
  | put (key : Str) (size : Nat)
  | touch (key : Str)
  deriving DecidableEq

/-- Apply one cache operation. -/
def CompilerCache.applyOp (c : CompilerCache) : CacheOp → CompilerCache
  | .put k s => HandlerCompiler.put_to_cache c k s
  | .touch k => (HandlerCompiler.get_from_cache c k).2

/-- Run a sequence of cache operations. -/
def CompilerCache.runOps (c : CompilerCache) (ops : List CacheOp) :
    CompilerCache :=
  ops.foldl CompilerCache.applyOp c

/-- The real byte total of the stored entries. -/
def sumSizes (l : List (Str × CacheEntry)) : Nat :=
  (l.map (fun p => p.2.size)).sum

/-- Cache well-formedness: the tracked counter equals the real total and
keys are unique (as in a `HashMap`). -/
def cacheWF (c : CompilerCache) : Prop :=
  c.cache_size = sumSizes c.entries ∧ (c.entries.map Prod.fst).Nodup

/-! Theorems.  Helper lemmas come first; each claim has one main
theorem, and where the main theorem carries hypotheses a witness
theorem instantiates it at concrete inputs. -/

theorem splitColon_ne_nil (s : Str) : splitColon s ≠ [] := by
  induction s with
  | nil => simp [splitColon]
  | cons c rest ih =>
    simp only [splitColon]
    split
    · simp
    · cases h : splitColon rest <;> simp

/-- A colon-free string is one single segment. -/
theorem splitColon_no_colon (s : Str) (h : ':' ∉ s) : splitColon s = [s] := by
  induction s with
  | nil => rfl
  | cons c rest ih =>
    simp only [List.mem_cons, not_or] at h
    have hc : ¬ c = ':' := fun hc => h.1 (by simp [hc])
    simp only [splitColon, if_neg hc, ih h.2]

/-- Splitting at the first colon of `a ++ ':' :: b` when `a` is colon-free. -/
theorem splitColon_append (a b : Str) (h : ':' ∉ a) :
    splitColon (a ++ ':' :: b) = a :: splitColon b := by
  induction a with
  | nil => simp [splitColon]
  | cons c rest ih =>
    simp only [List.mem_cons, not_or] at h
    have hc : ¬ c = ':' := fun hc => h.1 (by simp [hc])
    have ihr := ih h.2
    simp only [List.cons_append, splitColon, if_neg hc, List.append_eq, ihr]

theorem matches_requiredOf (t : CapabilityToken) (f : Family) (scope : Str)
    (h : ':' ∉ scope) :
    t.matches (requiredOf f scope) = true ↔ specTokenMatches t f scope := by
  have hs := splitColon_no_colon scope h
  cases f <;>
    [ (have hsplit : splitColon (requiredOf Family.stateRead scope) =
        ["state".toList, "read".toList, scope] := by
        show splitColon ("state".toList ++ ':' ::
          ("read".toList ++ ':' :: scope)) = _
        rw [splitColon_append _ _ (by decide),
          splitColon_append _ _ (by decide), hs]);
      (have hsplit : splitColon (requiredOf Family.stateWrite scope) =
        ["state".toList, "write".toList, scope] := by
        show splitColon ("state".toList ++ ':' ::
          ("write".toList ++ ':' :: scope)) = _
        rw [splitColon_append _ _ (by decide),
          splitColon_append _ _ (by decide), hs]);
      (have hsplit : splitColon (requiredOf Family.eventsEmit scope) =
        ["events".toList, "emit".toList, scope] := by
        show splitColon ("events".toList ++ ':' ::
          ("emit".toList ++ ':' :: scope)) = _
        rw [splitColon_append _ _ (by decide),
          splitColon_append _ _ (by decide), hs]);
      (have hsplit : splitColon (requiredOf Family.viewUpdate scope) =
        ["view".toList, "update".toList, scope] := by
        show splitColon ("view".toList ++ ':' ::
          ("update".toList ++ ':' :: scope)) = _
        rw [splitColon_append _ _ (by decide),
          splitColon_append _ _ (by decide), hs]);
      (have hsplit : splitColon (requiredOf Family.ext scope) =
        ["ext".toList, scope] := by
        show splitColon ("ext".toList ++ ':' :: scope) = _
        rw [splitColon_append _ _ (by decide), hs])] <;>
    cases t <;>
    simp_all [CapabilityToken.matches, specTokenMatches,
      CapabilityToken.family, CapabilityToken.isWildcard,
      CapabilityToken.scope]

/-- Claim C1 (amended): for every granted set and every required string
`family:scope` whose scope is colon-free, the capability check returns true
iff some granted token's family equals the required family and the token is
the family wildcard or its scope string-equals the required scope.  (The
claim as stated is false when the scope contains a colon; see the
counterexample.) -/
theorem c1_capability_check_iff (capabilities : List CapabilityToken)
    (f : Family) (scope : Str) (h : ':' ∉ scope) :
    CapabilityChecker.check capabilities (requiredOf f scope) = true ↔
      specCheck capabilities f scope := by
  simp only [CapabilityChecker.check, List.any_eq_true, specCheck]
  exact exists_congr fun t =>
    and_congr_right fun _ => matches_requiredOf t f scope h

/-- Claim C1, witness: a specific-scope token grants its own scope. -/
theorem c1_capability_check_iff_witness :
    CapabilityChecker.check [CapabilityToken.stateRead ("count".toList)]
      (requiredOf Family.stateRead ("count".toList)) = true :=
  (c1_capability_check_iff _ _ _ (by decide)).mpr
    ⟨CapabilityToken.stateRead ("count".toList), by decide, rfl, Or.inr rfl⟩

/-- Claim C1, counterexample: with required string `state:read:a:b` (family
`state:read`, scope `a:b`), the wildcard token `state:read:*` satisfies the
claimed condition but the code's check returns false, because `matches`
splits the required string at every colon and finds four parts. -/
theorem c1_counterexample :
    ¬ (CapabilityChecker.check [CapabilityToken.stateReadAll]
        (requiredOf Family.stateRead ("a:b".toList)) = true ↔
       specCheck [CapabilityToken.stateReadAll] Family.stateRead
        ("a:b".toList)) := by
  decide

/-- Claim C8 (amended): `parse (t.to_string_repr) = some t` for every token
whose scope is colon-free and not `*` (and for all wildcard tokens).  The
claim as stated — including scope `*` or scopes containing a colon — is
false; see the counterexample. -/
theorem c8_round_trip (t : CapabilityToken) (h : t.scopeSafe) :
    CapabilityToken.parse t.to_string_repr = some t := by
  cases t with
  | stateRead k =>
    obtain ⟨h1, h2⟩ := h
    replace h2 : _ ≠ ['*'] := fun hk => h2 (hk.trans rfl)
    have hsplit : splitColon ((CapabilityToken.stateRead k).to_string_repr) =
        ["state".toList, "read".toList, k] := by
      show splitColon ("state".toList ++ ':' ::
        ("read".toList ++ ':' :: k)) = _
      rw [splitColon_append _ _ (by decide),
        splitColon_append _ _ (by decide), splitColon_no_colon k h1]
    simp [CapabilityToken.parse, hsplit, beq_iff_eq, h2]
  | stateWrite k =>
    obtain ⟨h1, h2⟩ := h
    replace h2 : _ ≠ ['*'] := fun hk => h2 (hk.trans rfl)
    have hsplit : splitColon ((CapabilityToken.stateWrite k).to_string_repr) =
        ["state".toList, "write".toList, k] := by
      show splitColon ("state".toList ++ ':' ::
        ("write".toList ++ ':' :: k)) = _
      rw [splitColon_append _ _ (by decide),
        splitColon_append _ _ (by decide), splitColon_no_colon k h1]
    simp [CapabilityToken.parse, hsplit, beq_iff_eq, h2]
  | eventsEmit n =>
    obtain ⟨h1, h2⟩ := h
    replace h2 : _ ≠ ['*'] := fun hk => h2 (hk.trans rfl)
    have hsplit : splitColon ((CapabilityToken.eventsEmit n).to_string_repr) =
        ["events".toList, "emit".toList, n] := by
      show splitColon ("events".toList ++ ':' ::
        ("emit".toList ++ ':' :: n)) = _
      rw [splitColon_append _ _ (by decide),
        splitColon_append _ _ (by decide), splitColon_no_colon n h1]
    simp [CapabilityToken.parse, hsplit, beq_iff_eq, h2]
  | viewUpdate i =>
    obtain ⟨h1, h2⟩ := h
    replace h2 : _ ≠ ['*'] := fun hk => h2 (hk.trans rfl)
    have hsplit : splitColon ((CapabilityToken.viewUpdate i).to_string_repr) =
        ["view".toList, "update".toList, i] := by
      show splitColon ("view".toList ++ ':' ::
        ("update".toList ++ ':' :: i)) = _
      rw [splitColon_append _ _ (by decide),
        splitColon_append _ _ (by decide), splitColon_no_colon i h1]
    simp [CapabilityToken.parse, hsplit, beq_iff_eq, h2]
  | extension n =>
    obtain ⟨h1, h2⟩ := h
    replace h2 : _ ≠ ['*'] := fun hk => h2 (hk.trans rfl)
    have hsplit : splitColon ((CapabilityToken.extension n).to_string_repr) =
        ["ext".toList, n] := by
      show splitColon ("ext".toList ++ ':' :: n) = _
      rw [splitColon_append _ _ (by decide), splitColon_no_colon n h1]
    simp [CapabilityToken.parse, hsplit, beq_iff_eq, h2]
  | stateReadAll => decide
  | stateWriteAll => decide
  | eventsEmitAll => decide
  | viewUpdateAll => decide
  | extensionAll => decide

/-- Claim C8, witness: an ordinary scoped token round-trips. -/
theorem c8_round_trip_witness :
    CapabilityToken.parse
        ((CapabilityToken.eventsEmit ("toast".toList)).to_string_repr) =
      some (CapabilityToken.eventsEmit ("toast".toList)) :=
  c8_round_trip _ ⟨by decide, by decide⟩

/-- Claim C8, counterexample: the token `StateRead("*")` prints as
`state:read:*`, which parses back as the wildcard `StateReadAll`, so the
round-trip is not lossless for scope `*`. -/
theorem c8_counterexample :
    CapabilityToken.parse
        ((CapabilityToken.stateRead ("*".toList)).to_string_repr) ≠
      some (CapabilityToken.stateRead ("*".toList)) := by
  decide

/-- Claim C10: every string rejected by `parse` becomes, through the
`From<String>` conversion used during deserialization, the token
`Extension(s)` with the whole original string as scope; when the string is
colon-free this token really grants the extension named by that string. -/
theorem c10_from_string_fallback (s : Str)
    (h : CapabilityToken.parse s = none) :
    CapabilityToken.fromString s = .extension s ∧
      (':' ∉ s →
        (CapabilityToken.fromString s).matches ("ext:".toList ++ s) = true) := by
  refine ⟨by simp [CapabilityToken.fromString, h], fun hc => ?_⟩
  have hsplit : splitColon ('e' :: 'x' :: 't' :: ':' :: s) =
      ["ext".toList, s] := by
    show splitColon ("ext".toList ++ ':' :: s) = _
    rw [splitColon_append _ _ (by decide), splitColon_no_colon s hc]
  simp [CapabilityToken.fromString, h, CapabilityToken.matches, hsplit]

/-- Claim C10, witness: the unparsable string `state:write` (two segments)
silently becomes an extension grant. -/
theorem c10_from_string_fallback_witness :
    CapabilityToken.fromString ("state:write".toList) =
      .extension ("state:write".toList) :=
  (c10_from_string_fallback _ (by decide)).1

/-- Claim C2: when the capability check of `state_set`, `state_delete`,
`emit_event` or `view_command` fails, the call returns the PermissionDenied
error code and the whole execution context — in particular its effect
accumulators — is returned unchanged, because the check precedes the
record. -/
theorem c2_denied_preserves_context (ctx : ExecutionContext)
    (key name : Str) (v p : RuntimeValue) (cmd : ViewCommand) :
    (ctx.has_capability ("state:write:".toList ++ key) = false →
     ctx.has_capability ("state:write:*".toList) = false →
       state_set ctx key v = (.error error_codes.PERMISSION_DENIED, ctx) ∧
       state_delete ctx key = (.error error_codes.PERMISSION_DENIED, ctx)) ∧
    (ctx.has_capability ("events:emit:".toList ++ name) = false →
     ctx.has_capability ("events:emit:*".toList) = false →
       emit_event ctx name p = (.error error_codes.PERMISSION_DENIED, ctx)) ∧
    (ctx.has_capability (viewRequired cmd) = false →
     ctx.has_capability ("view:update:*".toList) = false →
       view_command ctx cmd = (.error error_codes.PERMISSION_DENIED, ctx)) := by
  refine ⟨fun h1 h2 => ⟨?_, ?_⟩, fun h1 h2 => ?_, fun h1 h2 => ?_⟩
  · simp only [state_set]; rw [h1, h2]; simp
  · simp only [state_delete]; rw [h1, h2]; simp
  · simp only [emit_event]; rw [h1, h2]; simp
  · simp only [view_command]; rw [h1, h2]; simp

/-- Claim C2, witness: with no capabilities granted, a state write and an
event emission are denied and the context is unchanged. -/
theorem c2_denied_preserves_context_witness :
    state_set noCapsCtx ("count".toList) RuntimeValue.null =
      (.error error_codes.PERMISSION_DENIED, noCapsCtx) ∧
    emit_event noCapsCtx ("toast".toList) RuntimeValue.null =
      (.error error_codes.PERMISSION_DENIED, noCapsCtx) :=
  ⟨((c2_denied_preserves_context noCapsCtx ("count".toList) ("toast".toList)
      RuntimeValue.null RuntimeValue.null
      (ViewCommand.mkFocus ("input".toList))).1 rfl rfl).1,
   (c2_denied_preserves_context noCapsCtx ("count".toList) ("toast".toList)
      RuntimeValue.null RuntimeValue.null
      (ViewCommand.mkFocus ("input".toList))).2.1 rfl rfl⟩

/-- Claim C3 (amended): the host functions themselves leave the host-call
counter untouched; only `HostFunctions::check_host_call_limit` increments
it, and that check fails with the ResourceLimit error code exactly when the
incremented count strictly exceeds `max_host_calls` — so the call that
reaches the cap exactly still succeeds, and a failing call observes count
`max_host_calls + 1`, not the cap. -/
theorem c3_host_call_counter (ctx : ExecutionContext) (m : Nat)
    (key name en me : Str) (v p : RuntimeValue) (cmd : ViewCommand)
    (lvl : Int) (msg sid : Str) (args : List RuntimeValue) :
    (HostFunctions.check_host_call_limit ctx m).2.host_call_count =
        ctx.host_call_count + 1 ∧
    ((HostFunctions.check_host_call_limit ctx m).1 =
        .error error_codes.RESOURCE_LIMIT ↔ ctx.host_call_count + 1 > m) ∧
    (state_get ctx key).2.host_call_count = ctx.host_call_count ∧
    (state_set ctx key v).2.host_call_count = ctx.host_call_count ∧
    (state_delete ctx key).2.host_call_count = ctx.host_call_count ∧
    (state_has ctx key).2.host_call_count = ctx.host_call_count ∧
    (state_keys ctx).2.host_call_count = ctx.host_call_count ∧
    (emit_event ctx name p).2.host_call_count = ctx.host_call_count ∧
    (view_command ctx cmd).2.host_call_count = ctx.host_call_count ∧
    (ext_suspend ctx en me args sid).2.host_call_count =
        ctx.host_call_count ∧
    (logging.log ctx lvl msg).2.host_call_count = ctx.host_call_count := by
  refine ⟨?_, ?_, ?_, ?_, ?_, ?_, ?_, ?_, ?_, ?_, ?_⟩
  · simp [HostFunctions.check_host_call_limit]
    split <;> rfl
  · simp only [HostFunctions.check_host_call_limit]
    split <;> simp_all [error_codes.RESOURCE_LIMIT]
  · simp only [state_get]; split <;> rfl
  · simp only [state_set]; split <;> rfl
  · simp only [state_delete]; split <;> rfl
  · simp only [state_has]; split <;> rfl
  · simp only [state_keys]; split <;> rfl
  · simp only [emit_event]; split <;> rfl
  · simp only [view_command]; split <;> rfl
  · simp only [ext_suspend]
    split
    · rfl
    · split
      · rfl
      · split <;> rfl
  · rfl

/-- Claim C3, counterexample: a successful `state_set` host call leaves the
host-call counter at 0 (no host function increments it or consults
`max_host_calls`), and with cap 2 the call that makes the count reach
exactly 2 still returns Ok rather than the claimed ResourceLimit error. -/
theorem c3_counterexample :
    (state_set writeAllCtx ("count".toList) RuntimeValue.null).1 =
      .ok () ∧
    (state_set writeAllCtx ("count".toList)
        RuntimeValue.null).2.host_call_count = 0 ∧
    HostFunctions.check_host_call_limit
        { writeAllCtx with host_call_count := 1 } 2 =
      (.ok (), { writeAllCtx with host_call_count := 2 }) :=
  ⟨rfl, rfl, rfl⟩

/-- Claim C4 (code bug): releasing a Suspended instance *does* add a
semaphore permit back — `release` adds the permit before inspecting the
state — so with `max_instances = 1` a second instance can be acquired while
the first is suspended, and after `get_suspended` two checkouts are active
at once.  The instance is, as claimed, inserted into the suspension map
under its suspension id, but a suspended instance does not count against
the budget, contradicting the claimed invariant. -/
theorem c4_suspended_release_returns_permit :
    (InstancePool.new 1 0).acquire =
      .ok (some (poolAfterFirstAcquire, WasmInstance.new 0)) ∧
    (poolAfterFirstAcquire.release suspInst).permits = 1 ∧
    lookupStr (poolAfterFirstAcquire.release suspInst).suspended
      ("s1".toList) = some suspInst ∧
    (poolAfterFirstAcquire.release suspInst).acquire =
      .ok (some (poolAfterSecondAcquire, WasmInstance.new 1)) ∧
    (poolAfterSecondAcquire.get_suspended ("s1".toList)).map
      (fun q => q.1.active_count) = some 2 :=
  ⟨rfl, rfl, rfl, rfl, rfl⟩

/-- Claim C5, counterexample: a resume whose guest suspends again under the
new id `s2` returns a Suspended result, but the instance is *not* re-stored
in the pool — the suspension map has no `s2` entry and the available deque
is unchanged, so the new suspension id can never be resumed. -/
theorem c5_counterexample :
    WasmRuntime.resume_handler pool5 MetricsCollector.new ("s1".toList)
        asyncOkNull (.ok none) ctxSuspAgain 5 =
      .ok (pool5After, mc5After, res5After) ∧
    res5After.status = .suspended ∧
    res5After.suspension = some { suspension_id := "s2".toList,
                                  extension_name := "http".toList,
                                  method := "get".toList,
                                  args := [] } ∧
    lookupStr pool5After.suspended ("s2".toList) = none ∧
    pool5After.available = [] ∧
    pool5After.active_count = 1 :=
  ⟨rfl, rfl, rfl, rfl, rfl, rfl⟩

/-- Claim C5 (amended): `resume_handler` fails with the suspension-not-found
error when no instance is stored under the id; otherwise it resumes the
instance but never releases it back to the pool — whatever the outcome, the
pool it returns has the old entry removed, nothing re-inserted, the
available deque and permit count unchanged, and the active count still
incremented by the lookup. -/
theorem c5_resume_handler (pool : InstancePool) (mc : MetricsCollector)
    (sid : Str) (result : AsyncResult)
    (er : Except RuntimeError (Option RuntimeValue))
    (ctxA : ExecutionContext) (d : Nat) :
    (lookupStr pool.suspended sid = none →
      WasmRuntime.resume_handler pool mc sid result er ctxA d =
        .error (.suspension ("Suspension not found".toList))) ∧
    (∀ p' mc' res,
      WasmRuntime.resume_handler pool mc sid result er ctxA d =
          .ok (p', mc', res) →
        p'.available = pool.available ∧ p'.permits = pool.permits ∧
        p'.suspended = removeAssoc pool.suspended sid ∧
        p'.active_count = pool.active_count + 1) := by
  constructor
  · intro h
    simp [WasmRuntime.resume_handler, InstancePool.get_suspended, h]
  · intro p' mc' res h
    unfold WasmRuntime.resume_handler InstancePool.get_suspended at h
    cases hl : lookupStr pool.suspended sid with
    | none => rw [hl] at h; simp at h
    | some inst =>
      rw [hl] at h
      simp only at h
      cases hr : inst.resume result er ctxA d with
      | error e => rw [hr] at h; simp at h
      | ok pr =>
        rw [hr] at h
        simp only [Except.ok.injEq, Prod.mk.injEq] at h
        obtain ⟨h1, -, -⟩ := h
        subst h1
        exact ⟨rfl, rfl, rfl, rfl⟩

/-- Claim C5, witness: the error case on an empty pool and the
no-release facts on the concrete chained-suspension scenario. -/
theorem c5_resume_handler_witness :
    WasmRuntime.resume_handler (InstancePool.new 1 0) MetricsCollector.new
        ("nope".toList) asyncOkNull (.ok none) noCapsCtx 0 =
      .error (.suspension ("Suspension not found".toList)) ∧
    pool5After.active_count = pool5.active_count + 1 ∧
    pool5After.suspended = removeAssoc pool5.suspended ("s1".toList) :=
  ⟨(c5_resume_handler _ _ _ _ _ _ _).1 rfl,
   ((c5_resume_handler pool5 MetricsCollector.new ("s1".toList) asyncOkNull
       (.ok none) ctxSuspAgain 5).2 pool5After mc5After res5After
     rfl).2.2.2,
   ((c5_resume_handler pool5 MetricsCollector.new ("s1".toList) asyncOkNull
       (.ok none) ctxSuspAgain 5).2 pool5After mc5After res5After
     rfl).2.2.1⟩

/-- Claim C6, counterexample: resuming a suspended instance whose context
has accumulated one mutation, with the engine failing, yields an Idle
instance — but the Error result carries empty effect lists, although the
context held a mutation; the execute error path would have attached it. -/
theorem c6_counterexample :
    suspendedInstWithCtx.resume asyncOkNull
        (.error (.general ("boom".toList))) ctxWithMutation 7 =
      .ok (WasmInstance.new 0, res6Err) ∧
    res6Err.state_mutations = [] ∧
    res6Err.events = [] ∧
    res6Err.view_commands = [] ∧
    ctxWithMutation.state_mutations = [setKMutation] ∧
    res6Err.status = .error ∧
    (WasmInstance.new 0).state = .idle :=
  ⟨rfl, rfl, rfl, rfl, rfl, rfl, rfl⟩

/-- Claim C6 (amended): when the engine errors during `resume`, the
instance does become Idle, but the returned Error result is built by
`WasmResult::error` alone — its mutation, event and view-command lists are
empty, the accumulated effects being dropped — whereas the `execute` error
path attaches the accumulated effects to its Error result. -/
theorem c6_resume_error_drops_effects (inst inst2 : WasmInstance)
    (result : AsyncResult) (e : RuntimeError) (ctxA : ExecutionContext)
    (d : Nat) (compiled : CompiledHandler) (wc : WasmContext) :
    (inst.state = .suspended → inst.context.isSome = true →
      inst.resume result (.error e) ctxA d =
        .ok ({ inst with
                state := .idle, suspension_id := none, context := none },
          WasmResult.mkError e.to_wasm_error
            (ExecutionMetrics.new.with_duration d)) ∧
      (WasmResult.mkError e.to_wasm_error
        (ExecutionMetrics.new.with_duration d)).state_mutations = []) ∧
    (inst2.state = .idle →
      inst2.execute compiled wc (.error e) ctxA d =
        .ok ({ inst2 with
                state := .idle,
                execution_count := inst2.execution_count + 1,
                memory_used := 1048576, memory_peak := 1048576,
                context := some ctxA },
          (((WasmResult.mkError e.to_wasm_error
              ((ExecutionMetrics.new.with_duration d).with_memory
                1048576 1048576)).with_mutations
            ctxA.state_mutations).with_events
            ctxA.events).with_view_commands ctxA.view_commands)) := by
  constructor
  · intro h1 h2
    obtain ⟨c, hc⟩ := Option.isSome_iff_exists.mp h2
    refine ⟨?_, rfl⟩
    simp [WasmInstance.resume, h1, hc]
  · intro h
    simp [WasmInstance.execute, h]

/-- Claim C6, witness: the amended statement applied to the concrete
suspended instance and an idle instance. -/
theorem c6_resume_error_drops_effects_witness :
    suspendedInstWithCtx.resume asyncOkNull
        (.error (.general ("boom".toList))) ctxWithMutation 7 =
      .ok ({ suspendedInstWithCtx with
              state := .idle, suspension_id := none, context := none },
        WasmResult.mkError
          (RuntimeError.general ("boom".toList)).to_wasm_error
          (ExecutionMetrics.new.with_duration 7)) :=
  ((c6_resume_error_drops_effects suspendedInstWithCtx (WasmInstance.new 3)
      asyncOkNull (.general ("boom".toList)) ctxWithMutation 7
      { bytecode := [], cache_hit := false }
      (WasmContext.new [] [])).1 rfl rfl).1

/-- Claim C7, counterexample: on timeout the façade returns an Ok result
with status Error and code Timeout and records the TIMEOUT error metric,
but the result's effect lists are empty although the aborted instance's
context had accumulated a mutation — partial effects are not preserved. -/
theorem c7_counterexample :
    WasmRuntime.execute_handler_result 50 .timedOut timerHit
        MetricsCollector.new ctxWithMutation = (.ok res7, mc7) ∧
    res7.state_mutations = [] ∧
    res7.events = [] ∧
    res7.view_commands = [] ∧
    ctxWithMutation.state_mutations = [setKMutation] ∧
    res7.status = .error ∧
    res7.error.map (fun e => e.code) = some .timeout ∧
    lookupStr mc7.error_counts ("TIMEOUT".toList) = some 1 :=
  ⟨rfl, rfl, rfl, rfl, rfl, rfl, rfl, rfl⟩

/-- Claim C7 (amended): a timed-out `execute_handler` returns an Ok value
(the timeout is an outcome, not a raised error) whose payload is the
Timeout error result built from the timer metrics, records the TIMEOUT
error metric — and that result carries empty effect lists whatever the
aborted instance's context held, so accumulated effects are not preserved
on the timeout path. -/
theorem c7_timeout_result (timeout_ms : Nat) (timer : ExecutionMetrics)
    (mc : MetricsCollector) (ctxA : ExecutionContext) :
    WasmRuntime.execute_handler_result timeout_ms .timedOut timer mc ctxA =
      (.ok (WasmResult.mkError (WasmError.timeout timeout_ms) timer),
       (mc.record_execution timer false).record_error ("TIMEOUT".toList)) ∧
    (WasmResult.mkError (WasmError.timeout timeout_ms) timer).status =
      .error ∧
    (WasmResult.mkError (WasmError.timeout timeout_ms)
      timer).state_mutations = [] ∧
    (WasmResult.mkError (WasmError.timeout timeout_ms) timer).events = [] ∧
    (WasmResult.mkError (WasmError.timeout timeout_ms) timer).error =
      some (WasmError.new .timeout ("Handler exceeded ".toList ++
        natToStr timeout_ms ++ "ms time limit".toList)) :=
  ⟨rfl, rfl, rfl, rfl, rfl⟩

theorem sumSizes_append (a b : List (Str × CacheEntry)) :
    sumSizes (a ++ b) = sumSizes a + sumSizes b := by
  simp [sumSizes]

theorem lookupStr_cons {α : Type} (q : Str × α) (rest : List (Str × α))
    (k : Str) :
    lookupStr (q :: rest) k =
      if q.1 == k then some q.2 else lookupStr rest k := by
  cases hb : (q.1 == k) <;> simp [lookupStr, List.find?, hb]

theorem removeAssoc_cons {α : Type} (q : Str × α) (rest : List (Str × α))
    (k : Str) :
    removeAssoc (q :: rest) k =
      if q.1 == k then rest else q :: removeAssoc rest k := rfl

theorem minByAccessed_mem {l : List (Str × CacheEntry)}
    {p : Str × CacheEntry} (h : minByAccessed l = some p) : p ∈ l := by
  induction l with
  | nil => simp [minByAccessed] at h
  | cons q rest ih =>
    simp only [minByAccessed, Option.some.injEq] at h
    cases hm : minByAccessed rest with
    | none => rw [hm] at h; dsimp only at h; simp [← h]
    | some r =>
      rw [hm] at h
      dsimp only at h
      by_cases hlt : r.2.last_accessed < q.2.last_accessed
      · rw [if_pos hlt] at h
        exact List.mem_cons_of_mem q (ih (h ▸ hm))
      · rw [if_neg hlt] at h
        simp [← h]

theorem lookup_of_mem_nodup {l : List (Str × CacheEntry)} {k : Str}
    {e : CacheEntry} (hmem : (k, e) ∈ l)
    (hnd : (l.map Prod.fst).Nodup) : lookupStr l k = some e := by
  induction l with
  | nil => simp at hmem
  | cons q rest ih =>
    simp only [List.map_cons, List.nodup_cons] at hnd
    rw [lookupStr_cons]
    rcases List.mem_cons.mp hmem with heq | hmem'
    · subst heq
      simp
    · have hne : (q.1 == k) = false := by
        rw [beq_eq_false_iff_ne]
        intro hq
        exact hnd.1 (hq ▸ List.mem_map.mpr ⟨(k, e), hmem', rfl⟩)
      rw [hne]
      simp only [Bool.false_eq_true, if_false]
      exact ih hmem' hnd.2

theorem removeAssoc_lookup_sum {l : List (Str × CacheEntry)} {k : Str}
    {e : CacheEntry} (h : lookupStr l k = some e) :
    sumSizes (removeAssoc l k) + e.size = sumSizes l ∧
      (removeAssoc l k).length + 1 = l.length := by
  induction l with
  | nil => simp [lookupStr] at h
  | cons q rest ih =>
    rw [lookupStr_cons] at h
    rw [removeAssoc_cons]
    cases hb : (q.1 == k) with
    | true =>
      rw [hb, if_pos rfl] at h
      rw [if_pos rfl]
      obtain rfl : q.2 = e := by simpa using h
      constructor
      · simp [sumSizes, Nat.add_comm]
      · simp
    | false =>
      rw [hb] at h
      simp only [Bool.false_eq_true, if_false] at h ⊢
      obtain ⟨ih1, ih2⟩ := ih h
      constructor
      · simp only [sumSizes, List.map_cons, List.sum_cons] at ih1 ⊢
        omega
      · simp only [List.length_cons]
        omega

theorem removeAssoc_sublist {α : Type} (l : List (Str × α)) (k : Str) :
    (removeAssoc l k).Sublist l := by
  induction l with
  | nil => simp [removeAssoc]
  | cons q rest ih =>
    rw [removeAssoc_cons]
    by_cases hb : (q.1 == k) = true
    · rw [if_pos hb]
      exact List.sublist_cons_self q rest
    · rw [if_neg hb]
      exact ih.cons₂ q

theorem keys_nodup_removeAssoc {α : Type} {l : List (Str × α)} (k : Str)
    (hnd : (l.map Prod.fst).Nodup) :
    ((removeAssoc l k).map Prod.fst).Nodup :=
  ((removeAssoc_sublist l k).map Prod.fst).nodup hnd

theorem not_mem_keys_removeAssoc {α : Type} {l : List (Str × α)} {k : Str}
    (hnd : (l.map Prod.fst).Nodup) :
    k ∉ (removeAssoc l k).map Prod.fst := by
  induction l with
  | nil => simp [removeAssoc]
  | cons q rest ih =>
    simp only [List.map_cons, List.nodup_cons] at hnd
    rw [removeAssoc_cons]
    cases hb : (q.1 == k) with
    | true =>
      rw [if_pos rfl]
      exact fun hm => hnd.1 (beq_iff_eq.mp hb ▸ hm)
    | false =>
      simp only [Bool.false_eq_true, if_false, List.map_cons]
      intro hm
      rcases List.mem_cons.mp hm with heq | hm'
      · rw [heq] at hb
        simp at hb
      · exact ih hnd.2 hm'

theorem lookup_none_not_mem {α : Type} {l : List (Str × α)} {k : Str}
    (h : lookupStr l k = none) : k ∉ l.map Prod.fst := by
  induction l with
  | nil => simp
  | cons q rest ih =>
    rw [lookupStr_cons] at h
    cases hb : (q.1 == k) with
    | true => rw [hb, if_pos rfl] at h; simp at h
    | false =>
      rw [hb] at h
      simp only [Bool.false_eq_true, if_false] at h
      simp only [List.map_cons, List.mem_cons]
      rintro (heq | hm)
      · rw [heq] at hb
        simp at hb
      · exact ih h hm

theorem sumSizes_map_size_preserving (l : List (Str × CacheEntry))
    (f : Str × CacheEntry → Str × CacheEntry)
    (h : ∀ p, (f p).2.size = p.2.size) :
    sumSizes (l.map f) = sumSizes l := by
  induction l with
  | nil => rfl
  | cons q rest ih => simp [sumSizes] at ih ⊢; rw [h q, ih]

theorem keys_map_fst_preserving {α : Type} (l : List (Str × α))
    (f : Str × α → Str × α) (h : ∀ p, (f p).1 = p.1) :
    (l.map f).map Prod.fst = l.map Prod.fst := by
  induction l with
  | nil => rfl
  | cons q rest ih => simp [h q, ih]

/-- `evict_lru` preserves well-formedness; a successful eviction removes
exactly one entry, a failed one leaves the cache unchanged and only
happens on an empty cache. -/
theorem evict_lru_spec (c : CompilerCache) (h : cacheWF c) :
    cacheWF (HandlerCompiler.evict_lru c).2 ∧
    ((HandlerCompiler.evict_lru c).1 = true →
      (HandlerCompiler.evict_lru c).2.entries.length + 1 =
        c.entries.length) ∧
    ((HandlerCompiler.evict_lru c).1 = false →
      (HandlerCompiler.evict_lru c).2 = c ∧ c.entries = []) ∧
    (HandlerCompiler.evict_lru c).2.max_cache_size = c.max_cache_size := by
  unfold HandlerCompiler.evict_lru
  cases hm : minByAccessed c.entries with
  | none =>
    refine ⟨h, by simp, fun _ => ⟨rfl, ?_⟩, rfl⟩
    cases he : c.entries with
    | nil => rfl
    | cons q rest => rw [he] at hm; simp [minByAccessed] at hm
  | some p =>
    obtain ⟨k, e⟩ := p
    have hmem := minByAccessed_mem hm
    have hlk := lookup_of_mem_nodup hmem h.2
    obtain ⟨hsum, hlen⟩ := removeAssoc_lookup_sum hlk
    refine ⟨⟨?_, keys_nodup_removeAssoc k h.2⟩, fun _ => hlen, ?_, rfl⟩
    · have h1 := h.1
      dsimp only
      omega
    · intro hf
      simp at hf

/-- The eviction loop with fuel at least the entry count: the result is
well-formed and either fits alongside the new entry or is empty; budget
unchanged. -/
theorem evictLoopAux_spec (fuel : Nat) :
    ∀ (c : CompilerCache) (s : Nat), cacheWF c →
      c.entries.length ≤ fuel →
      cacheWF (evictLoopAux fuel s c) ∧
      ((evictLoopAux fuel s c).cache_size + s ≤ c.max_cache_size ∨
        (evictLoopAux fuel s c).entries = []) ∧
      (evictLoopAux fuel s c).max_cache_size = c.max_cache_size := by
  induction fuel with
  | zero =>
    intro c s hwf hf
    have he : c.entries = [] := List.length_eq_zero.mp (Nat.le_zero.mp hf)
    exact ⟨hwf, Or.inr he, rfl⟩
  | succ n ih =>
    intro c s hwf hf
    obtain ⟨hw, hlen, hfalse, hmax⟩ := evict_lru_spec c hwf
    by_cases hc : c.cache_size + s > c.max_cache_size
    · rw [evictLoopAux, if_pos hc]
      cases hev : HandlerCompiler.evict_lru c with
      | mk b c' =>
        cases b with
        | false =>
          obtain ⟨heq, hemp⟩ := hfalse (by rw [hev])
          rw [hev] at heq
          have heq2 : c' = c := heq
          dsimp only
          rw [heq2]
          exact ⟨hwf, Or.inr hemp, rfl⟩
        | true =>
          have hl : c'.entries.length + 1 = c.entries.length := by
            have := hlen (by rw [hev])
            rwa [hev] at this
          have hw' : cacheWF c' := by rw [hev] at hw; exact hw
          have hm' : c'.max_cache_size = c.max_cache_size := by
            rw [hev] at hmax; exact hmax
          dsimp only
          obtain ⟨a1, a2, a3⟩ := ih c' s hw' (by omega)
          exact ⟨a1, by rw [hm'] at a2; exact a2, by rw [a3, hm']⟩
    · rw [evictLoopAux, if_neg hc]
      exact ⟨hwf, Or.inl (by omega), rfl⟩

/-- `put_to_cache` keeps the cache well-formed and within budget whenever
the inserted entry alone fits the budget. -/
theorem put_to_cache_spec (c : CompilerCache) (key : Str) (s : Nat)
    (hwf : cacheWF c) (hs : s ≤ c.max_cache_size) :
    cacheWF (HandlerCompiler.put_to_cache c key s) ∧
    (HandlerCompiler.put_to_cache c key s).cache_size ≤
      c.max_cache_size ∧
    (HandlerCompiler.put_to_cache c key s).max_cache_size =
      c.max_cache_size := by
  obtain ⟨hwf1, hfit, hmax⟩ :=
    evictLoopAux_spec c.entries.length c s hwf le_rfl
  unfold HandlerCompiler.put_to_cache
  set c1 := evictLoopAux c.entries.length s c with hc1
  dsimp only
  have h1 := hwf1.1
  cases hlk : lookupStr c1.entries key with
  | some old =>
    obtain ⟨hsum, -⟩ := removeAssoc_lookup_sum hlk
    refine ⟨⟨?_, ?_⟩, ?_, hmax⟩
    · dsimp only
      simp only [sumSizes] at h1 hsum ⊢
      rw [List.map_append, List.sum_append]
      simp only [List.map_cons, List.map_nil, List.sum_cons, List.sum_nil]
      omega
    · dsimp only
      rw [List.map_append]
      simp only [List.map_cons, List.map_nil]
      rw [List.nodup_append]
      refine ⟨keys_nodup_removeAssoc key hwf1.2, List.nodup_singleton _, ?_⟩
      intro x hx hx'
      simp only [List.mem_singleton] at hx'
      subst hx'
      exact not_mem_keys_removeAssoc hwf1.2 hx
    · dsimp only
      rcases hfit with hle | hemp
      · omega
      · rw [hemp] at hlk
        simp [lookupStr] at hlk
  | none =>
    refine ⟨⟨?_, ?_⟩, ?_, hmax⟩
    · dsimp only
      simp only [sumSizes] at h1 ⊢
      rw [List.map_append, List.sum_append]
      simp only [List.map_cons, List.map_nil, List.sum_cons, List.sum_nil]
      omega
    · dsimp only
      rw [List.map_append]
      simp only [List.map_cons, List.map_nil]
      rw [List.nodup_append]
      refine ⟨hwf1.2, List.nodup_singleton _, ?_⟩
      intro x hx hx'
      simp only [List.mem_singleton] at hx'
      subst hx'
      exact lookup_none_not_mem hlk hx
    · dsimp only
      rcases hfit with hle | hemp
      · omega
      · have hz : c1.cache_size = 0 := by
          rw [h1, hemp]
          rfl
        omega

/-- A cache hit only touches access metadata: the byte total, the key set
and the budget are unchanged. -/
theorem get_from_cache_spec (c : CompilerCache) (key : Str)
    (hwf : cacheWF c) :
    cacheWF (HandlerCompiler.get_from_cache c key).2 ∧
    (HandlerCompiler.get_from_cache c key).2.cache_size = c.cache_size ∧
    (HandlerCompiler.get_from_cache c key).2.max_cache_size =
      c.max_cache_size := by
  unfold HandlerCompiler.get_from_cache
  cases hlk : lookupStr c.entries key with
  | none => exact ⟨hwf, rfl, rfl⟩
  | some e =>
    dsimp only
    refine ⟨⟨?_, ?_⟩, rfl, rfl⟩
    · rw [sumSizes_map_size_preserving _ _ ?_]
      · exact hwf.1
      · intro p
        by_cases hb : (p.1 == key) = true
        · rw [if_pos hb]
        · rw [if_neg hb]
    · rw [keys_map_fst_preserving _ _ ?_]
      · exact hwf.2
      · intro p
        by_cases hb : (p.1 == key) = true
        · rw [if_pos hb]
        · rw [if_neg hb]

/-- Claim C9 (amended): after every sequence of compile/cache operations
(inserts and hits) starting from an empty cache, the tracked byte total
never exceeds `max_cache_size_bytes`, provided every inserted entry on its
own fits the budget.  (An entry larger than the budget is inserted after
the cache has been emptied and the total then exceeds the budget; see the
counterexample.) -/
theorem c9_cache_budget (m : Nat) (ops : List CacheOp)
    (h : ∀ k s, CacheOp.put k s ∈ ops → s ≤ m) :
    (CompilerCache.runOps (CompilerCache.empty m) ops).cache_size ≤ m := by
  have main : ∀ (l : List CacheOp) (c : CompilerCache),
      (∀ k s, CacheOp.put k s ∈ l → s ≤ m) → cacheWF c →
      c.cache_size ≤ m → c.max_cache_size = m →
      cacheWF (CompilerCache.runOps c l) ∧
      (CompilerCache.runOps c l).cache_size ≤ m ∧
      (CompilerCache.runOps c l).max_cache_size = m := by
    intro l
    induction l with
    | nil => intro c hl hwf hle hmax; exact ⟨hwf, hle, hmax⟩
    | cons op rest ih =>
      intro c hl hwf hle hmax
      have hrest : ∀ k s, CacheOp.put k s ∈ rest → s ≤ m :=
        fun k s hm => hl k s (List.mem_cons_of_mem _ hm)
      show cacheWF (CompilerCache.runOps (CompilerCache.applyOp c op)
        rest) ∧ _
      cases op with
      | put k s =>
        have hs : s ≤ m := hl k s (List.mem_cons_self _ _)
        obtain ⟨hw', hle', hmax'⟩ :=
          put_to_cache_spec c k s hwf (hmax ▸ hs)
        have hle2 : (HandlerCompiler.put_to_cache c k s).cache_size ≤ m := by
          rw [← hmax]
          exact hle'
        exact ih _ hrest hw' hle2 (hmax'.trans hmax)
      | touch k =>
        obtain ⟨hw', heq', hmax'⟩ := get_from_cache_spec c k hwf
        have hle2 : (HandlerCompiler.get_from_cache c k).2.cache_size ≤ m := by
          rw [heq']
          exact hle
        exact ih _ hrest hw' hle2 (hmax'.trans hmax)
  exact (main ops (CompilerCache.empty m) h ⟨rfl, List.nodup_nil⟩
    (Nat.zero_le m) rfl).2.1

/-- Claim C9, witness: a sequence of inserts and a hit that forces two
evictions stays within the 10-byte budget. -/
theorem c9_cache_budget_witness :
    (CompilerCache.runOps (CompilerCache.empty 10)
      [CacheOp.put ("a".toList) 5, CacheOp.put ("b".toList) 7,
       CacheOp.touch ("b".toList), CacheOp.put ("c".toList) 9]).cache_size
      ≤ 10 :=
  c9_cache_budget 10 _ (by
    intro k s hm
    simp only [List.mem_cons, List.not_mem_nil, or_false] at hm
    rcases hm with ⟨-, rfl⟩ | ⟨-, rfl⟩ | hm | ⟨-, rfl⟩ <;>
      first
        | omega
        | cases hm)

/-- Claim C9, counterexample: inserting a single 20-byte entry into an
empty cache with a 10-byte budget empties the cache and inserts anyway,
leaving the byte total at 20, above the budget. -/
theorem c9_counterexample :
    (CompilerCache.runOps (CompilerCache.empty 10)
      [CacheOp.put ("k".toList) 20]).cache_size = 20 ∧
    (CompilerCache.runOps (CompilerCache.empty 10)
      [CacheOp.put ("k".toList) 20]).max_cache_size = 10 ∧
    ¬ (CompilerCache.runOps (CompilerCache.empty 10)
        [CacheOp.put ("k".toList) 20]).cache_size ≤
      (CompilerCache.runOps (CompilerCache.empty 10)
        [CacheOp.put ("k".toList) 20]).max_cache_size :=
  ⟨rfl, rfl, by decide⟩
